import Mathlib

/-!
Shallow embedding of the `ts-command-queue` repository
(`src/CommandQueue.ts`, `src/View.ts`, `src/ViewDerivation.ts`).

The repository implements an in-process event-sourcing primitive: an
append-only command log (`CommandQueue`) feeds reduced projections
(`View`), which in turn may feed derived projections (`ViewDerivation`).

Modelling conventions:
* JavaScript strict reference equality (`!==`) on state values is modelled
  by decidable equality on the state type `O`.
* The `T | T[]` union accepted by `View.push` is modelled by `Sum T (List T)`;
  the `Array.isArray` test becomes the `Sum` case split.
* Subscriber callbacks and child derivations are modelled by identities
  (`Nat`); an invocation of a callback or a forwarding to a child is
  recorded as an `Event` in an emitted trace rather than executed,
  which makes notification counts and payloads directly observable.
* The sequential (total) model below embeds the post-`initialize` happy
  path, in which the reducer never throws; a second model with
  `Except`-valued reducers, further down, embeds the throw/reject paths
  of the same source lines.
-/

namespace TSCQ

/-- Notifications a node can emit, recorded as trace events: an invocation
of a subscriber callback (`this.subscriptions.forEach(cb => cb(state))`),
a `parentDidChange` forwarded to a registered child derivation
(`updateDerivations`), and a child derivation being seeded
(`derivation.initialize(this.currentState)` in `registerDerivation`). -/
inductive Event (O : Type) where
  | subscriberCalled (id : Nat) (value : O)
  | derivationNotified (id : Nat) (value : O)
  | derivationSeeded (id : Nat) (value : O)
  deriving DecidableEq, Repr

/-- Embeds `View.fireCallbacks`: every registered callback is invoked with
the given state. -/
def fireCallbacks (subs : List Nat) (s : O) : List (Event O) :=
  subs.map (fun k => Event.subscriberCalled k s)

/-- Embeds `View.updateDerivations` / `ViewDerivation.updateDerivations`:
every registered child derivation receives `parentDidChange(nextState)`. -/
def updateDerivations (ders : List Nat) (s : O) : List (Event O) :=
  ders.map (fun k => Event.derivationNotified k s)

/-- Embeds `Set.add` on a registry of callback / derivation identities:
adding an element already present leaves the set unchanged. -/
def addToSet (xs : List Nat) (k : Nat) : List Nat :=
  if k ∈ xs then xs else xs ++ [k]

/-- Application-supplied reducer bundle for a `View` (the two abstract
methods `getInitialState` and `getNextState`), here in its total form:
the reducer neither throws nor rejects. -/
structure Reducer (T O : Type) where
  getInitialState : O
  getNextState : O → T → O

/-- A `View` object after its `initialize` has completed successfully:
its `currentState` is set, the ready gate has resolved, and it carries
its registries of subscriber callbacks and child derivations. -/
structure ViewNode (T O : Type) where
  red : Reducer T O
  currentState : O
  subscribers : List Nat
  derivations : List Nat

/-- Embeds `View.initialize(queue)` on the happy path: obtain the initial
state from `getInitialState`, then fold `getNextState` over every command
of the supplied log, in order, and store the result as `currentState`
(`src/View.ts` lines 70–93). -/
def View.initT (red : Reducer T O) (queue : List T) : ViewNode T O :=
  { red := red
    currentState := queue.foldl red.getNextState red.getInitialState
    subscribers := []
    derivations := [] }

/-- Embeds the fold inside `View.push` (`src/View.ts` lines 106–115):
a bare command is reduced once; an array of commands is reduced
sequentially, threading each intermediate state into the next step. -/
def View.reduceArg (red : Reducer T O) (s : O) : Sum T (List T) → O
  | Sum.inl c => red.getNextState s c
  | Sum.inr cs => cs.foldl red.getNextState s

/-- Embeds `View.push(command)` on a ready node (`src/View.ts` lines
100–126): fold the incoming command(s) from `currentState`, then compare
the result with the pre-fold state by identity; only on a change is the
state replaced, every subscriber invoked with the new value, and every
child derivation notified via `parentDidChange`. -/
def View.pushT [DecidableEq O] (v : ViewNode T O) (cmd : Sum T (List T)) :
    ViewNode T O × List (Event O) :=
  let nextState := View.reduceArg v.red v.currentState cmd
  if nextState = v.currentState then (v, [])
  else ({ v with currentState := nextState },
        fireCallbacks v.subscribers nextState ++
          updateDerivations v.derivations nextState)

/-- Embeds `View.subscribe(callback)` on an already-ready node
(`src/View.ts` lines 134–142): the callback is added to the registry and,
because `isInitialized` has resolved, is invoked once with the current
state as a catch-up. -/
def View.subscribeT (v : ViewNode T O) (k : Nat) :
    ViewNode T O × List (Event O) :=
  ({ v with subscribers := addToSet v.subscribers k },
   [Event.subscriberCalled k v.currentState])

/-- Embeds `View.registerDerivation(derivation)` on an already-ready node
(`src/View.ts` lines 153–161): the child is added and then seeded once
with the parent's current state. -/
def View.registerDerivationT (v : ViewNode T O) (k : Nat) :
    ViewNode T O × List (Event O) :=
  ({ v with derivations := addToSet v.derivations k },
   [Event.derivationSeeded k v.currentState])

/-- Application-supplied reducer bundle for a `ViewDerivation` (total
form): `getNextState` consumes the parent state and the derivation's own
current state. -/
structure DReducer (I O : Type) where
  getInitialState : O
  getNextState : I → O → O

/-- A `ViewDerivation` object after its `initialize` has completed. -/
structure DerivNode (I O : Type) where
  red : DReducer I O
  currentState : O
  subscribers : List Nat
  derivations : List Nat

/-- Embeds `ViewDerivation.parentDidChange(nextParentState)` on a ready
node (`src/ViewDerivation.ts` lines 18–31): reduce once, compare by
identity, and on a change replace the state, fire the callbacks and
notify the children. -/
def DerivNode.parentDidChange [DecidableEq O] (d : DerivNode I O) (p : I) :
    DerivNode I O × List (Event O) :=
  let ourNextState := d.red.getNextState p d.currentState
  if d.currentState = ourNextState then (d, [])
  else ({ d with currentState := ourNextState },
        fireCallbacks d.subscribers ourNextState ++
          updateDerivations d.derivations ourNextState)

/-- Embeds `ViewDerivation.subscribe(callback)` on an already-ready node
(`src/ViewDerivation.ts` lines 52–60), identical in shape to
`View.subscribe`. -/
def DerivNode.subscribeT (d : DerivNode I O) (k : Nat) :
    DerivNode I O × List (Event O) :=
  ({ d with subscribers := addToSet d.subscribers k },
   [Event.subscriberCalled k d.currentState])

/-- The in-memory command queue together with its registered views
(`src/CommandQueue.ts`): `queue` is the append-only log and `views` the
registry of attached views (all over the same output type `O` here). -/
structure CommandQueueT (T O : Type) where
  queue : List T
  views : List (ViewNode T O)

/-- Embeds `CommandQueue.push(command)` (`src/CommandQueue.ts` lines
21–24 and 60–64): the command is appended to the log as one entry
(`this.queue.push(command)`), then forwarded to every registered view via
that view's `push`; the promise each `view.push` returns is discarded, so
only the resulting view objects are retained here. -/
def CommandQueueT.push [DecidableEq O] (q : CommandQueueT T O) (c : T) :
    CommandQueueT T O :=
  { queue := q.queue ++ [c]
    views := q.views.map (fun v => (View.pushT v (Sum.inl c)).1) }

/-- Embeds `CommandQueue.registerView(view)` (`src/CommandQueue.ts` lines
31–44): the view is added to the registry and initialized with a shallow
copy of the log taken at this instant (`view.initialize([...this.queue])`);
lists being values here, the snapshot is the current `queue`. -/
def CommandQueueT.registerView [DecidableEq O] (q : CommandQueueT T O)
    (red : Reducer T O) : CommandQueueT T O :=
  { q with views := q.views ++ [View.initT red q.queue] }

/-- A view advanced by a sequence of single-command `push` calls, each
completing before the next begins. -/
def advanceView [DecidableEq O] (v : ViewNode T O) (cmds : List T) :
    ViewNode T O :=
  cmds.foldl (fun w c => (View.pushT w (Sum.inl c)).1) v

/-- Operations an external caller can perform on a ready `View`, used to
build traces. -/
inductive Op (T : Type) where
  | push (cmd : Sum T (List T))
  | subscribe (k : Nat)

/-- One operation on a ready `View`, returning the updated node and the
events it emitted. -/
def ViewNode.step [DecidableEq O] (v : ViewNode T O) : Op T → ViewNode T O × List (Event O)
  | Op.push cmd => View.pushT v cmd
  | Op.subscribe k => View.subscribeT v k

/-- Sequential execution of a list of operations on a ready `View`,
concatenating the emitted event traces in order. -/
def ViewNode.run [DecidableEq O] (v : ViewNode T O) : List (Op T) → ViewNode T O × List (Event O)
  | [] => (v, [])
  | op :: ops =>
      let s := ViewNode.step v op
      let r := ViewNode.run s.1 ops
      (r.1, s.2 ++ r.2)

/-- Operations an external caller can perform on a ready `ViewDerivation`. -/
inductive DOp (I : Type) where
  | parentDidChange (p : I)
  | subscribe (k : Nat)

/-- One operation on a ready `ViewDerivation`. -/
def DerivNode.step [DecidableEq O] (d : DerivNode I O) : DOp I → DerivNode I O × List (Event O)
  | DOp.parentDidChange p => DerivNode.parentDidChange d p
  | DOp.subscribe k => DerivNode.subscribeT d k

/-- Sequential execution of a list of operations on a ready
`ViewDerivation`. -/
def DerivNode.run [DecidableEq O] (d : DerivNode I O) : List (DOp I) → DerivNode I O × List (Event O)
  | [] => (d, [])
  | op :: ops =>
      let s := DerivNode.step d op
      let r := DerivNode.run s.1 ops
      (r.1, s.2 ++ r.2)

/-- State of a node's one-shot ready gate after `initialize` has run:
`ready s` models a resolved `isInitialized` promise with `currentState = s`;
`failed e` models a rejected gate, in which case no state was ever stored. -/
inductive GateE (E O : Type) where
  | ready (s : O)
  | failed (e : E)
  deriving DecidableEq, Repr

/-- Reducer bundle for a `View` whose provider or reducer may throw or
reject; a thrown exception of type `E` is an `Except.error`. -/
structure ReducerE (E T O : Type) where
  getInitialState : Except E O
  getNextState : O → T → Except E O

/-- A `View` object after `initialize` has run, in the fallible model:
the gate records whether seeding succeeded and, if so, the stored state. -/
structure ViewNodeE (E T O : Type) where
  red : ReducerE E T O
  gate : GateE E O
  subscribers : List Nat
  derivations : List Nat

/-- Embeds `View.initialize(queue)` with its `try`/`catch`
(`src/View.ts` lines 70–93): obtain the initial state, fold every command
in order, and resolve the gate with the result; if the provider or any
fold step throws, the gate rejects and `currentState` is never assigned. -/
def View.initE (red : ReducerE E T O) (queue : List T) : GateE E O :=
  match red.getInitialState with
  | Except.error e => GateE.failed e
  | Except.ok i =>
      match queue.foldlM red.getNextState i with
      | Except.error e => GateE.failed e
      | Except.ok s => GateE.ready s

/-- The fold inside `View.push` in the fallible model: the first throwing
reducer call aborts the fold with its exception. -/
def View.reduceArgE (red : ReducerE E T O) (s : O) : Sum T (List T) → Except E O
  | Sum.inl c => red.getNextState s c
  | Sum.inr cs => cs.foldlM red.getNextState s

/-- Embeds `View.push(command)` in the fallible model (`src/View.ts`
lines 100–126). The `Option E` component is the rejection carried by the
promise `push` returns: `await this.isInitialized` re-throws a seeding
failure, and a throwing reducer call aborts the fold; in either case the
stored state is untouched and nothing is notified. -/
def View.pushE [DecidableEq O] (v : ViewNodeE E T O) (cmd : Sum T (List T)) :
    ViewNodeE E T O × List (Event O) × Option E :=
  match v.gate with
  | GateE.failed e => (v, [], some e)
  | GateE.ready s =>
      match View.reduceArgE v.red s cmd with
      | Except.error e => (v, [], some e)
      | Except.ok nextState =>
          if nextState = s then (v, [], none)
          else ({ v with gate := GateE.ready nextState },
                fireCallbacks v.subscribers nextState ++
                  updateDerivations v.derivations nextState,
                none)

/-- Embeds `View.subscribe(callback)` in the fallible model: the callback
joins the registry unconditionally, but the catch-up invocation is
scheduled with `this.isInitialized.then(...)`, so it fires only if the
gate resolved; on a rejected gate the callback is never invoked. -/
def View.subscribeE (v : ViewNodeE E T O) (k : Nat) :
    ViewNodeE E T O × List (Event O) :=
  ({ v with subscribers := addToSet v.subscribers k },
   match v.gate with
   | GateE.ready s => [Event.subscriberCalled k s]
   | GateE.failed _ => [])

/-- Embeds `View.registerDerivation(derivation)` in the fallible model
(`src/View.ts` lines 153–161): the child joins the registry, and its
seeding with the parent state is scheduled with
`this.isInitialized.then(...)`, so it happens only if the gate resolved. -/
def View.registerDerivationE (v : ViewNodeE E T O) (k : Nat) :
    ViewNodeE E T O × List (Event O) :=
  ({ v with derivations := addToSet v.derivations k },
   match v.gate with
   | GateE.ready s => [Event.derivationSeeded k s]
   | GateE.failed _ => [])

/-- Operations an external caller can perform on a `View` in the fallible
model. -/
inductive OpE (T : Type) where
  | push (cmd : Sum T (List T))
  | subscribe (k : Nat)
  | registerDerivation (k : Nat)

/-- One operation on a `View` in the fallible model (the rejection a
`push` may return is dropped here, as `CommandQueue.pushToViews` drops
it). -/
def ViewNodeE.stepE [DecidableEq O] (v : ViewNodeE E T O) :
    OpE T → ViewNodeE E T O × List (Event O)
  | OpE.push cmd => ((View.pushE v cmd).1, (View.pushE v cmd).2.1)
  | OpE.subscribe k => View.subscribeE v k
  | OpE.registerDerivation k => View.registerDerivationE v k

/-- Sequential execution of operations on a `View` in the fallible
model. -/
def ViewNodeE.runE [DecidableEq O] (v : ViewNodeE E T O) :
    List (OpE T) → ViewNodeE E T O × List (Event O)
  | [] => (v, [])
  | op :: ops =>
      let s := ViewNodeE.stepE v op
      let r := ViewNodeE.runE s.1 ops
      (r.1, s.2 ++ r.2)

/-- The command queue over fallible views. -/
structure CommandQueueE (E T O : Type) where
  queue : List T
  views : List (ViewNodeE E T O)

/-- Embeds `CommandQueue.push(command)` over fallible views
(`src/CommandQueue.ts` lines 21–24 and 60–64): the command is appended to
the log, then `pushToViews` calls each view's `push` without awaiting or
inspecting the promise it returns, so a rejection never reaches the
queue; only the updated view objects are retained. -/
def CommandQueueE.push [DecidableEq O] (q : CommandQueueE E T O) (c : T) :
    CommandQueueE E T O :=
  { queue := q.queue ++ [c]
    views := q.views.map (fun v => (View.pushE v (Sum.inl c)).1) }

/-- Reducer bundle for a `ViewDerivation` whose provider or reducer may
throw. -/
structure DReducerE (E I O : Type) where
  getInitialState : Except E O
  getNextState : I → O → Except E O

/-- A `ViewDerivation` object after `initialize` has run, fallible
model. -/
structure DerivNodeE (E I O : Type) where
  red : DReducerE E I O
  gate : GateE E O
  subscribers : List Nat
  derivations : List Nat

/-- Embeds `ViewDerivation.initialize(parentState)` with its
`try`/`catch` (`src/ViewDerivation.ts` lines 33–44): the seeded state is
one reducer application of the supplied parent state to the
initial-state provider's value,
`getNextState(parentState, await getInitialState())`, and the gate
resolves only after that composition succeeds. -/
def DerivNodeE.initE (red : DReducerE E I O) (parentState : I) : GateE E O :=
  match red.getInitialState with
  | Except.error e => GateE.failed e
  | Except.ok i =>
      match red.getNextState parentState i with
      | Except.error e => GateE.failed e
      | Except.ok s => GateE.ready s

/-- Embeds `ViewDerivation.subscribe(callback)` in the fallible model
(`src/ViewDerivation.ts` lines 52–60): the catch-up fires only once the
gate has resolved, with the seeded (composed) state. -/
def DerivNodeE.subscribeE (d : DerivNodeE E I O) (k : Nat) :
    DerivNodeE E I O × List (Event O) :=
  ({ d with subscribers := addToSet d.subscribers k },
   match d.gate with
   | GateE.ready s => [Event.subscriberCalled k s]
   | GateE.failed _ => [])

/-- One in-flight `View.push` call with an asynchronous reducer, as seen
by the JavaScript event loop: `readState = none` means the call has not
yet passed the ready gate and read `this.currentState`;
`readState = some r` means it read `r`, invoked the reducer, and is
suspended awaiting the reducer's promise; `finished` marks the call's
final compare-and-store step as done. -/
structure AsyncPush (T O : Type) where
  cmd : T
  readState : Option O
  finished : Bool
  deriving DecidableEq, Repr

/-- The View together with its in-flight `push` calls. -/
structure AsyncSt (T O : Type) where
  current : O
  tasks : List (AsyncPush T O)
  deriving DecidableEq, Repr

/-- One event-loop step of in-flight `push` call `i`, following
`src/View.ts` lines 100–126 for an asynchronous `getNextState`. A call
that has not started resumes after `await this.isInitialized`, reads
`this.currentState`, calls the reducer and suspends on its promise; a
suspended call resumes with the reducer's result and runs the
compare-and-store block. Nothing in the source gates either step on
other in-flight calls. -/
def asyncStep [DecidableEq O] (f : O → T → O) (m : AsyncSt T O) (i : Nat) :
    AsyncSt T O :=
  match m.tasks[i]? with
  | none => m
  | some t =>
      match t.readState with
      | none =>
          { m with tasks := m.tasks.set i { t with readState := some m.current } }
      | some r =>
          if t.finished then m
          else
            let nextState := f r t.cmd
            { current := if nextState = m.current then m.current else nextState
              tasks := m.tasks.set i { t with finished := true } }

/-- Run a schedule (a list of task indices) of event-loop steps. -/
def asyncRun [DecidableEq O] (f : O → T → O) (m : AsyncSt T O)
    (schedule : List Nat) : AsyncSt T O :=
  schedule.foldl (asyncStep f) m

/-- Initial event-loop state for two `push` calls issued back-to-back on
a ready View holding state `s0`. -/
def twoPushes (s0 : O) (c1 c2 : T) : AsyncSt T O :=
  { current := s0
    tasks := [{ cmd := c1, readState := none, finished := false },
              { cmd := c2, readState := none, finished := false }] }

/-- The schedule produced by the event loop when the second `push` is
issued while the first one's reducer is still suspended (both calls pass
the ready gate before either reducer resolves, and the reducers resolve
in call order): read₁, read₂, commit₁, commit₂. -/
def overlappedSchedule : List Nat := [0, 1, 0, 1]

/-- The schedule produced when the first `push` fully completes before
the second is issued: read₁, commit₁, read₂, commit₂. -/
def serializedSchedule : List Nat := [0, 0, 1, 1]

section TotalLemmas

variable {T O : Type} [DecidableEq O]

/-- The state stored after a single-command `push` is the reducer applied
to the previous state, whether or not the identity gate fired. -/
lemma pushT_fst_currentState (v : ViewNode T O) (cmd : Sum T (List T)) :
    ((View.pushT v cmd).1).currentState = View.reduceArg v.red v.currentState cmd := by
  unfold View.pushT
  by_cases h : View.reduceArg v.red v.currentState cmd = v.currentState
  · simp [h]
  · simp [h]

/-- A `push` never changes the reducer of a view. -/
lemma pushT_fst_red (v : ViewNode T O) (cmd : Sum T (List T)) :
    ((View.pushT v cmd).1).red = v.red := by
  unfold View.pushT
  by_cases h : View.reduceArg v.red v.currentState cmd = v.currentState
  · simp [h]
  · simp [h]

/-- A `push` never changes the subscriber registry of a view. -/
lemma pushT_fst_subscribers (v : ViewNode T O) (cmd : Sum T (List T)) :
    ((View.pushT v cmd).1).subscribers = v.subscribers := by
  unfold View.pushT
  by_cases h : View.reduceArg v.red v.currentState cmd = v.currentState
  · simp [h]
  · simp [h]

/-- A `push` never changes the derivation registry of a view. -/
lemma pushT_fst_derivations (v : ViewNode T O) (cmd : Sum T (List T)) :
    ((View.pushT v cmd).1).derivations = v.derivations := by
  unfold View.pushT
  by_cases h : View.reduceArg v.red v.currentState cmd = v.currentState
  · simp [h]
  · simp [h]

/-- Advancing a view by single pushes preserves its reducer. -/
lemma advanceView_red (v : ViewNode T O) (cmds : List T) :
    (advanceView v cmds).red = v.red := by
  induction cmds generalizing v with
  | nil => rfl
  | cons c cs ih =>
      show (advanceView ((View.pushT v (Sum.inl c)).1) cs).red = v.red
      rw [ih, pushT_fst_red]

/-- Advancing a view by single pushes folds the reducer over the
commands, in order. -/
lemma advanceView_currentState (v : ViewNode T O) (cmds : List T) :
    (advanceView v cmds).currentState =
      cmds.foldl v.red.getNextState v.currentState := by
  induction cmds generalizing v with
  | nil => rfl
  | cons c cs ih =>
      show (advanceView ((View.pushT v (Sum.inl c)).1) cs).currentState = _
      rw [ih, pushT_fst_red, pushT_fst_currentState]
      rfl

/-- Folding `CommandQueue.push` over a command sequence appends the
commands to the log and advances every registered view by the
corresponding single pushes. -/
lemma commandQueueT_foldl_push (q : CommandQueueT T O) (cmds : List T) :
    cmds.foldl CommandQueueT.push q =
      { queue := q.queue ++ cmds
        views := q.views.map (fun v => advanceView v cmds) } := by
  induction cmds generalizing q with
  | nil => simp [advanceView]
  | cons c cs ih =>
      show cs.foldl CommandQueueT.push (CommandQueueT.push q c) = _
      rw [ih]
      simp [CommandQueueT.push, List.map_map]
      intro v _
      rfl

end TotalLemmas

section FallibleLemmas

variable {E T O I : Type} [DecidableEq O]

/-- A node whose ready gate rejected emits nothing and keeps its rejected
gate under any single operation: `push` re-throws the seeding failure
before touching state, and the `isInitialized.then` continuations of
`subscribe` and `registerDerivation` never run. -/
lemma stepE_of_failed (v : ViewNodeE E T O) (e : E)
    (h : v.gate = GateE.failed e) (op : OpE T) :
    (ViewNodeE.stepE v op).1.gate = GateE.failed e ∧
      (ViewNodeE.stepE v op).2 = [] := by
  cases op with
  | push cmd => simp [ViewNodeE.stepE, View.pushE, h]
  | subscribe k => simp [ViewNodeE.stepE, View.subscribeE, h]
  | registerDerivation k => simp [ViewNodeE.stepE, View.registerDerivationE, h]

/-- A node whose ready gate rejected emits nothing and keeps its rejected
gate under any sequence of operations. -/
lemma runE_of_failed (ops : List (OpE T)) :
    ∀ (v : ViewNodeE E T O) (e : E), v.gate = GateE.failed e →
      (ViewNodeE.runE v ops).1.gate = GateE.failed e ∧
        (ViewNodeE.runE v ops).2 = [] := by
  induction ops with
  | nil => exact fun v e h => ⟨h, rfl⟩
  | cons op ops ih =>
      intro v e h
      have hs := stepE_of_failed v e h op
      have hr := ih (ViewNodeE.stepE v op).1 e hs.1
      refine ⟨hr.1, ?_⟩
      show (ViewNodeE.stepE v op).2 ++
          (ViewNodeE.runE (ViewNodeE.stepE v op).1 ops).2 = []
      rw [hs.2, hr.2]
      rfl

/-- Value-level absorption of the identity-gated store: storing
`nextState` only when it differs from the current state leaves a value
equal to `nextState` either way. -/
lemma commitAbsorb (a b : O) : (if a = b then b else a) = a := by
  by_cases h : a = b
  · rw [if_pos h]; exact h.symm
  · rw [if_neg h]

end FallibleLemmas

/-- C1: for every reducer and every command sequence, a View registered
on a CommandQueue after the commands have been pushed (so that its seed
replay covers all of them) holds the same state as a View registered
before any command was pushed and fed each command live: replay-then-
stream equals stream-from-start. -/
theorem registerLateMatchesRegisterEarly {T O : Type} [DecidableEq O]
    (red : Reducer T O) (cmds : List T) :
    ((cmds.foldl CommandQueueT.push
        (CommandQueueT.registerView { queue := [], views := [] } red)).views.map
          (fun v => v.currentState))
      = ((CommandQueueT.registerView
            (cmds.foldl CommandQueueT.push { queue := [], views := [] })
            red).views.map
          (fun v => v.currentState)) := by
  rw [commandQueueT_foldl_push, commandQueueT_foldl_push]
  simp [CommandQueueT.registerView, View.initT, advanceView_currentState]

/-- C3: for every ready View and every command sequence, pushing the
commands one at a time (each push completing before the next) and
pushing them as a single batch array in one `push` call leave the View
with the identical final state. -/
theorem batchPushMatchesSinglePushes {T O : Type} [DecidableEq O]
    (v : ViewNode T O) (cmds : List T) :
    (advanceView v cmds).currentState
      = ((View.pushT v (Sum.inr cmds)).1).currentState := by
  rw [advanceView_currentState, pushT_fst_currentState]
  rfl

/-- C4: a batch of commands given to a ready View in one `push` call is
folded through the reducer threading intermediate values, only the final
folded value is compared against the pre-fold state, and at most one
notification wave results: none when the final value is identity-equal
to the pre-fold state, and otherwise exactly one invocation per
subscriber and per child derivation, all carrying the final folded
value — never an intermediate one. -/
theorem batchPushSingleNotificationWave {T O : Type} [DecidableEq O]
    (v : ViewNode T O) (cmds : List T) :
    (cmds.foldl v.red.getNextState v.currentState = v.currentState →
        View.pushT v (Sum.inr cmds) = (v, []))
    ∧ (cmds.foldl v.red.getNextState v.currentState ≠ v.currentState →
        View.pushT v (Sum.inr cmds) =
          ({ v with currentState := cmds.foldl v.red.getNextState v.currentState },
           fireCallbacks v.subscribers
               (cmds.foldl v.red.getNextState v.currentState) ++
             updateDerivations v.derivations
               (cmds.foldl v.red.getNextState v.currentState))) := by
  constructor
  · intro h
    unfold View.pushT
    simp [View.reduceArg, h]
  · intro h
    unfold View.pushT
    simp [View.reduceArg, h]

/-- Witness for C4 at a concrete View (state `5`, subscribers `[1, 2]`,
derivation `[3]`, additive reducer): the batch `[0, 0]` folds back to
`5` and produces no events, while the batch `[1, 2]` folds to `8` and
produces exactly one wave with the final value. -/
theorem batchPushSingleNotificationWave_witness :
    View.pushT (T := Nat)
        ⟨⟨0, fun s c => s + c⟩, 5, [1, 2], [3]⟩ (Sum.inr [0, 0])
      = (⟨⟨0, fun s c => s + c⟩, 5, [1, 2], [3]⟩, [])
    ∧ View.pushT (T := Nat)
        ⟨⟨0, fun s c => s + c⟩, 5, [1, 2], [3]⟩ (Sum.inr [1, 2])
      = (⟨⟨0, fun s c => s + c⟩, 8, [1, 2], [3]⟩,
         [Event.subscriberCalled 1 8, Event.subscriberCalled 2 8,
          Event.derivationNotified 3 8]) :=
  ⟨(batchPushSingleNotificationWave
      ⟨⟨0, fun s c => s + c⟩, 5, [1, 2], [3]⟩ [0, 0]).1 (by decide),
   (batchPushSingleNotificationWave
      ⟨⟨0, fun s c => s + c⟩, 5, [1, 2], [3]⟩ [1, 2]).2 (by decide)⟩

/-- C5: on a ready node, a reduction whose output is identity-equal to
the prior state replaces nothing and notifies nobody (no subscriber
callback, no `parentDidChange` to a child); a reduction whose output
differs replaces the state and notifies every current subscriber and
every registered child derivation with the new value. Both the View
(`push`) and the ViewDerivation (`parentDidChange`) cases are stated. -/
theorem identityGateOnNotifications {T I O : Type} [DecidableEq O]
    (v : ViewNode T O) (cmd : Sum T (List T)) (d : DerivNode I O) (p : I) :
    (View.reduceArg v.red v.currentState cmd = v.currentState →
        View.pushT v cmd = (v, []))
    ∧ (View.reduceArg v.red v.currentState cmd ≠ v.currentState →
        View.pushT v cmd =
          ({ v with currentState := View.reduceArg v.red v.currentState cmd },
           fireCallbacks v.subscribers (View.reduceArg v.red v.currentState cmd) ++
             updateDerivations v.derivations (View.reduceArg v.red v.currentState cmd)))
    ∧ (d.red.getNextState p d.currentState = d.currentState →
        DerivNode.parentDidChange d p = (d, []))
    ∧ (d.red.getNextState p d.currentState ≠ d.currentState →
        DerivNode.parentDidChange d p =
          ({ d with currentState := d.red.getNextState p d.currentState },
           fireCallbacks d.subscribers (d.red.getNextState p d.currentState) ++
             updateDerivations d.derivations (d.red.getNextState p d.currentState))) := by
  refine ⟨?_, ?_, ?_, ?_⟩
  · intro h
    unfold View.pushT
    simp [h]
  · intro h
    unfold View.pushT
    simp [h]
  · intro h
    unfold DerivNode.parentDidChange
    simp [h]
  · intro h
    unfold DerivNode.parentDidChange
    rw [if_neg (fun hc => h hc.symm)]

/-- Witness for C5 at concrete nodes: a View whose reducer returns the
state unchanged emits nothing, one whose reducer increments emits one
wave; likewise for a ViewDerivation under `parentDidChange`. -/
theorem identityGateOnNotifications_witness :
    View.pushT (T := Nat) ⟨⟨0, fun s _ => s⟩, 4, [1], [2]⟩ (Sum.inl 9)
      = (⟨⟨0, fun s _ => s⟩, 4, [1], [2]⟩, [])
    ∧ View.pushT (T := Nat) ⟨⟨0, fun s c => s + c⟩, 4, [1], [2]⟩ (Sum.inl 9)
      = (⟨⟨0, fun s c => s + c⟩, 13, [1], [2]⟩,
         [Event.subscriberCalled 1 13, Event.derivationNotified 2 13])
    ∧ DerivNode.parentDidChange (I := Nat) ⟨⟨0, fun _ s => s⟩, 4, [1], [2]⟩ 9
      = (⟨⟨0, fun _ s => s⟩, 4, [1], [2]⟩, [])
    ∧ DerivNode.parentDidChange (I := Nat) ⟨⟨0, fun p s => p + s⟩, 4, [1], [2]⟩ 9
      = (⟨⟨0, fun p s => p + s⟩, 13, [1], [2]⟩,
         [Event.subscriberCalled 1 13, Event.derivationNotified 2 13]) :=
  ⟨(identityGateOnNotifications ⟨⟨0, fun s _ => s⟩, 4, [1], [2]⟩ (Sum.inl 9)
      (I := Nat) ⟨⟨0, fun _ s => s⟩, 4, [1], [2]⟩ 9).1 (by decide),
   (identityGateOnNotifications ⟨⟨0, fun s c => s + c⟩, 4, [1], [2]⟩ (Sum.inl 9)
      (I := Nat) ⟨⟨0, fun _ s => s⟩, 4, [1], [2]⟩ 9).2.1 (by decide),
   (identityGateOnNotifications (T := Nat) ⟨⟨0, fun s _ => s⟩, 4, [1], [2]⟩ (Sum.inl 9)
      ⟨⟨0, fun _ s => s⟩, 4, [1], [2]⟩ 9).2.2.1 (by decide),
   (identityGateOnNotifications (T := Nat) ⟨⟨0, fun s _ => s⟩, 4, [1], [2]⟩ (Sum.inl 9)
      ⟨⟨0, fun p s => p + s⟩, 4, [1], [2]⟩ 9).2.2.2 (by decide)⟩

/-- C9: on a node whose ready gate has already resolved (every node of
the happy-path model), `subscribe` invokes the callback exactly once with
the node's current state as a catch-up, and in any trace this catch-up
precedes every event produced by subsequent operations on the node; this
holds for View and ViewDerivation alike. -/
theorem subscribeCatchUpPrecedesTransitions {T I O : Type} [DecidableEq O]
    (v : ViewNode T O) (d : DerivNode I O) (k : Nat)
    (ops : List (Op T)) (dops : List (DOp I)) :
    (ViewNode.step v (Op.subscribe k)).2
        = [Event.subscriberCalled k v.currentState]
    ∧ ViewNode.run v (Op.subscribe k :: ops)
        = ((ViewNode.run (View.subscribeT v k).1 ops).1,
           Event.subscriberCalled k v.currentState ::
             (ViewNode.run (View.subscribeT v k).1 ops).2)
    ∧ (DerivNode.step d (DOp.subscribe k)).2
        = [Event.subscriberCalled k d.currentState]
    ∧ DerivNode.run d (DOp.subscribe k :: dops)
        = ((DerivNode.run (DerivNode.subscribeT d k).1 dops).1,
           Event.subscriberCalled k d.currentState ::
             (DerivNode.run (DerivNode.subscribeT d k).1 dops).2) := by
  refine ⟨rfl, ?_, rfl, ?_⟩
  · show ((ViewNode.run (View.subscribeT v k).1 ops).1,
        [Event.subscriberCalled k v.currentState] ++
          (ViewNode.run (View.subscribeT v k).1 ops).2) = _
    rfl
  · show ((DerivNode.run (DerivNode.subscribeT d k).1 dops).1,
        [Event.subscriberCalled k d.currentState] ++
          (DerivNode.run (DerivNode.subscribeT d k).1 dops).2) = _
    rfl

/-- C2 counterexample: on a ready View holding state `0` with the
asynchronous additive reducer, two back-to-back `push` calls (commands
`1` then `2`) follow the overlapped event-loop schedule; the second call
reads state `0` — not `1`, the state the first call's completed mutation
produces — so it began its reduction before the first call's mutation
completed, and the final state is `2` where strict serialization would
give `3`. -/
theorem overlappingPushReadsStaleState_counterexample :
    ((asyncRun (fun s c => s + c) (twoPushes 0 1 2)
        overlappedSchedule).tasks.map AsyncPush.readState)
      = [some 0, some 0]
    ∧ (asyncRun (fun s c => s + c) (twoPushes 0 1 2) [0, 0]).current = 1
    ∧ some (0 : Nat) ≠ some 1
    ∧ (asyncRun (fun s c => s + c) (twoPushes 0 1 2)
        overlappedSchedule).current = 2
    ∧ (asyncRun (fun s c => s + c) (twoPushes 0 1 2)
        serializedSchedule).current = 3
    ∧ (2 : Nat) ≠ 3 := by
  decide

/-- C2 amended: reductions on a single node are serialized only behind
the ready gate. A second `push` arriving while a prior one's
asynchronous reduction is suspended begins its own reduction as soon as
the gate has resolved, reading the state from before the prior call's
mutation (both in-flight calls read the shared pre-push state), so the
final state is the second reduction applied to that stale state and the
first call's update is overwritten; only when the first call completes
before the second starts do the reductions compose. -/
theorem overlappingPushReadsStaleState {T O : Type} [DecidableEq O]
    (f : O → T → O) (s0 : O) (c1 c2 : T) :
    ((asyncRun f (twoPushes s0 c1 c2) overlappedSchedule).tasks.map
        AsyncPush.readState)
      = [some s0, some s0]
    ∧ (asyncRun f (twoPushes s0 c1 c2) overlappedSchedule).current = f s0 c2
    ∧ (asyncRun f (twoPushes s0 c1 c2) serializedSchedule).current
        = f (f s0 c1) c2 := by
  refine ⟨rfl, ?_, ?_⟩
  · show (if f s0 c2 = (if f s0 c1 = s0 then s0 else f s0 c1)
        then (if f s0 c1 = s0 then s0 else f s0 c1)
        else f s0 c2) = f s0 c2
    exact commitAbsorb _ _
  · show (if f (if f s0 c1 = s0 then s0 else f s0 c1) c2
            = (if f s0 c1 = s0 then s0 else f s0 c1)
        then (if f s0 c1 = s0 then s0 else f s0 c1)
        else f (if f s0 c1 = s0 then s0 else f s0 c1) c2)
      = f (f s0 c1) c2
    rw [commitAbsorb, commitAbsorb]

/-- C6: when seeding fails (the initial-state provider or any fold step
of `View.initialize` throws), the ready gate rejects, no state is ever
stored (a rejected gate carries none), and under any subsequent sequence
of operations the gate stays rejected and the node emits no event at
all: no subscriber catch-up, no notification, and no `initialize` to a
registered derivation. -/
theorem seedingFailureIsPermanentlySilent {E T O : Type} [DecidableEq O]
    (red : ReducerE E T O) (queue : List T) (e : E)
    (h : View.initE red queue = GateE.failed e)
    (subs ders : List Nat) (ops : List (OpE T)) :
    (ViewNodeE.runE ⟨red, View.initE red queue, subs, ders⟩ ops).1.gate
        = GateE.failed e
    ∧ (ViewNodeE.runE ⟨red, View.initE red queue, subs, ders⟩ ops).2 = [] :=
  runE_of_failed ops ⟨red, View.initE red queue, subs, ders⟩ e h

/-- Witness for C6: a reducer whose initial-state provider throws `7`
seeds to a rejected gate, and a subsequent subscribe, push and
derivation registration leave the gate rejected and emit nothing. -/
theorem seedingFailureIsPermanentlySilent_witness :
    View.initE (⟨Except.error 7, fun s c => Except.ok (s + c)⟩ :
        ReducerE Nat Nat Nat) [] = GateE.failed 7
    ∧ (ViewNodeE.runE
          ⟨⟨Except.error 7, fun s c => Except.ok (s + c)⟩,
            View.initE (⟨Except.error 7, fun s c => Except.ok (s + c)⟩ :
              ReducerE Nat Nat Nat) [], [], []⟩
          [OpE.subscribe 0, OpE.push (Sum.inl 5),
            OpE.registerDerivation 1]).1.gate = GateE.failed 7
    ∧ (ViewNodeE.runE
          ⟨⟨Except.error 7, fun s c => Except.ok (s + c)⟩,
            View.initE (⟨Except.error 7, fun s c => Except.ok (s + c)⟩ :
              ReducerE Nat Nat Nat) [], [], []⟩
          [OpE.subscribe 0, OpE.push (Sum.inl 5),
            OpE.registerDerivation 1]).2 = [] :=
  ⟨rfl,
   (seedingFailureIsPermanentlySilent
      (⟨Except.error 7, fun s c => Except.ok (s + c)⟩ : ReducerE Nat Nat Nat)
      [] 7 rfl [] []
      [OpE.subscribe 0, OpE.push (Sum.inl 5), OpE.registerDerivation 1]).1,
   (seedingFailureIsPermanentlySilent
      (⟨Except.error 7, fun s c => Except.ok (s + c)⟩ : ReducerE Nat Nat Nat)
      [] 7 rfl [] []
      [OpE.subscribe 0, OpE.push (Sum.inl 5), OpE.registerDerivation 1]).2⟩

/-- C7 (failing input): `CommandQueue.push` appends its argument to the
log as one entry, so a pushed array of two commands is stored as a
single log entry holding the whole array — not as two individual
entries — and a View registered afterwards replays the log with exactly
one reducer application (the counting reducer ends at `1`, not `2`).
The command type is instantiated with `Sum Nat (List Nat)` to express
the untyped `T | T[]` value actually reaching `push`. -/
theorem arrayPushStoredAsSingleLogEntry :
    (CommandQueueT.push (T := Sum Nat (List Nat)) (O := Nat)
        { queue := [], views := [] } (Sum.inr [1, 2])).queue
      = [Sum.inr [1, 2]]
    ∧ (CommandQueueT.push (T := Sum Nat (List Nat)) (O := Nat)
        { queue := [], views := [] } (Sum.inr [1, 2])).queue
      ≠ [Sum.inl 1, Sum.inl 2]
    ∧ ((CommandQueueT.registerView
          (CommandQueueT.push (T := Sum Nat (List Nat)) (O := Nat)
            { queue := [], views := [] } (Sum.inr [1, 2]))
          ⟨0, fun s _ => s + 1⟩).views.map (fun v => v.currentState))
      = [1] := by
  decide

/-- C8: `ViewDerivation.initialize(parentState)` seeds the derivation's
state as one reducer application of the supplied parent state against
the initial-state provider's value — `getNextState(parentState,
getInitialState())` — resolving the gate only if that composition
succeeds and rejecting it otherwise; the catch-up a subscriber receives
is that composed value, so no bare unfolded initial value is ever
exposed. -/
theorem derivationSeedIsComposed {E I O : Type}
    (red : DReducerE E I O) (p : I) (i : O) (k : Nat)
    (h : red.getInitialState = Except.ok i) :
    DerivNodeE.initE red p
        = (match red.getNextState p i with
            | Except.ok s => GateE.ready s
            | Except.error e => GateE.failed e)
    ∧ (∀ s, red.getNextState p i = Except.ok s →
        (DerivNodeE.subscribeE ⟨red, DerivNodeE.initE red p, [], []⟩ k).2
          = [Event.subscriberCalled k s]) := by
  constructor
  · unfold DerivNodeE.initE
    rw [h]
    show (match red.getNextState p i with
        | Except.error e => GateE.failed e
        | Except.ok s => GateE.ready s)
      = (match red.getNextState p i with
        | Except.ok s => GateE.ready s
        | Except.error e => GateE.failed e)
    cases red.getNextState p i <;> rfl
  · intro s hs
    simp [DerivNodeE.subscribeE, DerivNodeE.initE, h, hs]

/-- Witness for C8: with initial value `10` and the additive derivation
reducer, seeding from parent state `5` resolves the gate at the composed
value `15` (never exposing the bare `10`), and a subscriber's catch-up
carries `15`. -/
theorem derivationSeedIsComposed_witness :
    DerivNodeE.initE
        (⟨Except.ok 10, fun p i => Except.ok (p + i)⟩ :
          DReducerE Nat Nat Nat) 5
      = GateE.ready 15
    ∧ (DerivNodeE.subscribeE
          ⟨⟨Except.ok 10, fun p i => Except.ok (p + i)⟩,
            DerivNodeE.initE
              (⟨Except.ok 10, fun p i => Except.ok (p + i)⟩ :
                DReducerE Nat Nat Nat) 5, [], []⟩ 0).2
      = [Event.subscriberCalled 0 15] :=
  ⟨(derivationSeedIsComposed
      (⟨Except.ok 10, fun p i => Except.ok (p + i)⟩ : DReducerE Nat Nat Nat)
      5 10 0 rfl).1,
   (derivationSeedIsComposed
      (⟨Except.ok 10, fun p i => Except.ok (p + i)⟩ : DReducerE Nat Nat Nat)
      5 10 0 rfl).2 15 rfl⟩

/-- C10: on a ready View, a `getNextState` that throws during a
post-seeding `push` (here: partway through a batch) leaves the stored
state untouched and notifies no subscriber and no derivation; the
failure surfaces only in the rejection of the promise `push` returns,
and `CommandQueue.push` — which calls `view.push` without awaiting it —
still appends the command to the log and keeps the failed view
unchanged. -/
theorem pushFailureLeavesStateAndQueueIntact {E T O : Type} [DecidableEq O]
    (v : ViewNodeE E T O) (s : O) (cmd : Sum T (List T)) (c : T)
    (e e' : E) (l : List T)
    (h1 : v.gate = GateE.ready s)
    (h2 : View.reduceArgE v.red s cmd = Except.error e)
    (h3 : v.red.getNextState s c = Except.error e') :
    View.pushE v cmd = (v, [], some e)
    ∧ CommandQueueE.push { queue := l, views := [v] } c
        = { queue := l ++ [c], views := [v] } := by
  have hv : (View.pushE v (Sum.inl c)).1 = v := by
    simp [View.pushE, h1, View.reduceArgE, h3]
  constructor
  · simp [View.pushE, h1, h2]
  · simp [CommandQueueE.push, hv]

/-- Witness for C10: a reducer that always throws `3` on a ready View at
state `0` rejects a batch push `[1, 2]` without touching state or
emitting events, while the CommandQueue still appends the forwarded
command `7` to its log `[9]`. -/
theorem pushFailureLeavesStateAndQueueIntact_witness :
    View.pushE (E := Nat) (T := Nat) (O := Nat)
        ⟨⟨Except.ok 0, fun _ _ => Except.error 3⟩, GateE.ready 0, [1], [2]⟩
        (Sum.inr [1, 2])
      = (⟨⟨Except.ok 0, fun _ _ => Except.error 3⟩, GateE.ready 0, [1], [2]⟩,
         [], some 3)
    ∧ CommandQueueE.push (E := Nat) (T := Nat) (O := Nat)
        { queue := [9],
          views := [⟨⟨Except.ok 0, fun _ _ => Except.error 3⟩,
            GateE.ready 0, [1], [2]⟩] } 7
      = { queue := [9, 7],
          views := [⟨⟨Except.ok 0, fun _ _ => Except.error 3⟩,
            GateE.ready 0, [1], [2]⟩] } :=
  ⟨(pushFailureLeavesStateAndQueueIntact
      ⟨⟨Except.ok 0, fun _ _ => Except.error 3⟩, GateE.ready 0, [1], [2]⟩
      0 (Sum.inr [1, 2]) 7 3 3 [9] rfl rfl rfl).1,
   (pushFailureLeavesStateAndQueueIntact
      ⟨⟨Except.ok 0, fun _ _ => Except.error 3⟩, GateE.ready 0, [1], [2]⟩
      0 (Sum.inr [1, 2]) 7 3 3 [9] rfl rfl rfl).2⟩

end TSCQ
